import Mathlib

/-!
Shallow embedding of the tree-of-life diagram engine
(`src/tol/TreeOfLife.py` and `src/color_utils.py`) and proofs about it.

Python floating-point arithmetic is modelled with exact rationals
(exact reals for the trigonometric effect renderer), Python dynamic
values (results of `yaml.safe_load`) with the inductive type `Yaml`,
and Python exceptions with `Except PyErr`.  Warnings that the source
reports with `print` are modelled as an explicit list of emitted
warning strings.
-/

namespace Tol

mutual
/-- Model of a Python value as produced by `yaml.safe_load`: scalars,
lists and string-keyed dictionaries (all dictionaries appearing in the
color-scales documents are string-keyed). -/
inductive Yaml where
  | null
  | bool (b : Bool)
  | int (n : Int)
  | str (s : String)
  | list (xs : YamlList)
  | map (kvs : YamlDict)
deriving DecidableEq, Repr

/-- List of `Yaml` values (spelled out so equality can be derived). -/
inductive YamlList where
  | nil
  | cons (hd : Yaml) (tl : YamlList)
deriving DecidableEq, Repr

/-- String-keyed dictionary of `Yaml` values. -/
inductive YamlDict where
  | nil
  | cons (k : String) (v : Yaml) (tl : YamlDict)
deriving DecidableEq, Repr
end

/-- View a `YamlList` as an ordinary list. -/
def YamlList.toList : YamlList → List Yaml
  | .nil => []
  | .cons x tl => x :: tl.toList

/-- View a `YamlDict` as an ordinary association list (dictionaries
keep insertion order in Python, as does this list). -/
def YamlDict.toList : YamlDict → List (String × Yaml)
  | .nil => []
  | .cons k v tl => (k, v) :: tl.toList

/-- Build a `YamlList` from an ordinary list (for concrete documents). -/
def YamlList.ofList : List Yaml → YamlList
  | [] => .nil
  | x :: xs => .cons x (YamlList.ofList xs)

/-- Build a `YamlDict` from an association list (for concrete documents). -/
def YamlDict.ofList : List (String × Yaml) → YamlDict
  | [] => .nil
  | (k, v) :: xs => .cons k v (YamlDict.ofList xs)

/-- Convenience constructor for list documents. -/
def Yaml.ofList (xs : List Yaml) : Yaml := .list (YamlList.ofList xs)

/-- Convenience constructor for dictionary documents. -/
def Yaml.ofMap (kvs : List (String × Yaml)) : Yaml := .map (YamlDict.ofList kvs)

/-- Model of the Python exceptions the parsing code can raise. -/
inductive PyErr where
  | keyError (k : String)
  | typeError
  | attributeError
  | valueError
deriving DecidableEq, Repr

/-- Substring test, modelling Python `needle in haystack` on strings. -/
def strContainsSub (hay needle : String) : Bool :=
  (List.range (hay.toList.length + 1)).any
    (fun i => ((hay.toList.drop i).take needle.toList.length) == needle.toList)

/-- Python `key in value`: key membership for dicts, substring test for
strings, element membership for lists, `TypeError` otherwise. -/
def pyContains (k : String) : Yaml → Except PyErr Bool
  | .map kvs => .ok (kvs.toList.any (fun kv => kv.1 == k))
  | .str s => .ok (strContainsSub s k)
  | .list xs => .ok (xs.toList.any (fun x => x == Yaml.str k))
  | .null => .error .typeError
  | .bool _ => .error .typeError
  | .int _ => .error .typeError

/-- Python `value[k]` with a string key: dict lookup raising `KeyError`
when the key is absent, `TypeError` on any non-dict value. -/
def pySubscript (y : Yaml) (k : String) : Except PyErr Yaml :=
  match y with
  | .map kvs =>
    match kvs.toList.find? (fun kv => kv.1 == k) with
    | some kv => .ok kv.2
    | none => .error (.keyError k)
  | _ => .error .typeError

/-- Python `value.get(k)` (default `None`): `AttributeError` on
non-dicts. -/
def pyGet (y : Yaml) (k : String) : Except PyErr Yaml :=
  match y with
  | .map kvs =>
    .ok (((kvs.toList.find? (fun kv => kv.1 == k)).map (fun kv => kv.2)).getD .null)
  | _ => .error .attributeError

/-- Python `value.get(k, default)`: `AttributeError` on non-dicts. -/
def pyGetDefault (y : Yaml) (k : String) (d : Yaml) : Except PyErr Yaml :=
  match y with
  | .map kvs =>
    .ok (((kvs.toList.find? (fun kv => kv.1 == k)).map (fun kv => kv.2)).getD d)
  | _ => .error .attributeError

/-- Python `value.items()`: `AttributeError` on non-dicts. -/
def pyItems (y : Yaml) : Except PyErr (List (String × Yaml)) :=
  match y with
  | .map kvs => .ok kvs.toList
  | _ => .error .attributeError

/-- Python iteration `for x in value`: lists yield their elements,
strings their characters, dicts their keys; `TypeError` otherwise. -/
def pyIter (y : Yaml) : Except PyErr (List Yaml) :=
  match y with
  | .list xs => .ok xs.toList
  | .str s => .ok (s.toList.map (fun c => Yaml.str c.toString))
  | .map kvs => .ok (kvs.toList.map (fun kv => Yaml.str kv.1))
  | .null => .error .typeError
  | .bool _ => .error .typeError
  | .int _ => .error .typeError

/-- Python `len(value)`: `TypeError` on scalars. -/
def pyLen (y : Yaml) : Except PyErr Nat :=
  match y with
  | .list xs => .ok xs.toList.length
  | .str s => .ok s.toList.length
  | .map kvs => .ok kvs.toList.length
  | .null => .error .typeError
  | .bool _ => .error .typeError
  | .int _ => .error .typeError

/-- Python `value[0]` on a list (an empty list raises). -/
def pyIndex0 (y : Yaml) : Except PyErr Yaml :=
  match y with
  | .list xs =>
    match xs.toList with
    | [] => .error .valueError
    | x :: _ => .ok x
  | _ => .error .typeError

/-- Python truthiness of a value. -/
def pyTruthy : Yaml → Bool
  | .null => false
  | .bool b => b
  | .int n => n != 0
  | .str s => s != ""
  | .list xs => !xs.toList.isEmpty
  | .map kvs => !kvs.toList.isEmpty

/-!
Color-table parsing, from `ColorParser.parse_color_scales` in
`src/color_utils.py`.  The parsed per-element record `color_info` is
`ColorInfo`; the optional `effects` sub-dictionary is `EffectInfo`,
whose `color2` field holds the `color2` and `color2_hex` pair when
present and whose `colors` field holds the raw `colors` list.
-/

/-- Parsed effect dictionary: `{type, color2?, color2_hex?, colors?}`. -/
structure EffectInfo where
  type : Yaml
  color2 : Option (Yaml × Yaml)
  colors : Option Yaml
deriving DecidableEq, Repr

/-- Parsed per-element record `{color, effects}`. -/
structure ColorInfo where
  color : Yaml
  effects : Option EffectInfo
deriving DecidableEq, Repr

/-- A `sephiroth` or `paths` sub-table: element number (any Python
value can be a key) to color record, in insertion order. -/
abbrev ElemMap := List (Yaml × ColorInfo)

/-- One scale entry of the parse result. -/
structure SchemeData where
  sephiroth : ElemMap
  paths : ElemMap
deriving DecidableEq, Repr

/-- The whole parse result: scheme name to `SchemeData`, in insertion
order (a Python dict). -/
abbrev ColorTable := List (String × SchemeData)

/-- Dictionary write `m[k] = v` on an element map: replace the value at
an existing key, otherwise append. -/
def elemSet (m : ElemMap) (k : Yaml) (v : ColorInfo) : ElemMap :=
  if m.any (fun kv => kv.1 == k) then
    m.map (fun kv => if kv.1 == k then (k, v) else kv)
  else m ++ [(k, v)]

/-- Dictionary read `m.get(k)` on an element map. -/
def elemLookup (m : ElemMap) (k : Yaml) : Option ColorInfo :=
  (m.find? (fun kv => kv.1 == k)).map (fun kv => kv.2)

/-- Dictionary read on the parse result. -/
def tableLookup (t : ColorTable) (k : String) : Option SchemeData :=
  (t.find? (fun kv => kv.1 == k)).map (fun kv => kv.2)

/-- Update the scale entry at key `k` of the parse result in place. -/
def tableUpdate (t : ColorTable) (k : String) (f : SchemeData → SchemeData) : ColorTable :=
  t.map (fun kv => if kv.1 == k then (kv.1, f kv.2) else kv)

/-- Effect parsing for one element entry, from `src/color_utils.py`
lines 79-92 (identical code for paths at lines 105-118): when an
`effect` key is present and its `type` is truthy, record the type plus
either the single `color`/`hex` pair or the raw `colors` list. -/
def parseEffects (entry : Yaml) : Except PyErr (Option EffectInfo) := do
  let hasEffect ← pyContains "effect" entry
  if hasEffect then
    let eff ← pySubscript entry "effect"
    let effectType ← pyGet eff "type"
    if pyTruthy effectType then
      let hasColor ← pyContains "color" eff
      let hasHex ← if hasColor then pyContains "hex" eff else pure false
      if hasColor && hasHex then
        let c ← pySubscript eff "color"
        let h ← pySubscript eff "hex"
        pure (some { type := effectType, color2 := some (c, h), colors := none })
      else
        let hasColors ← pyContains "colors" eff
        if hasColors then
          let cs ← pySubscript eff "colors"
          pure (some { type := effectType, color2 := none, colors := some cs })
        else
          pure (some { type := effectType, color2 := none, colors := none })
    else
      pure none
  else
    pure none

/-- Parsing of one `sephiroth` or `paths` list entry, from
`src/color_utils.py` lines 72-94: read `number`, then `hex` (a missing
key raises `KeyError`; the hex value is stored unvalidated), then the
optional effect block. -/
def parseEntry (entry : Yaml) : Except PyErr (Yaml × ColorInfo) := do
  let number ← pySubscript entry "number"
  let hex ← pySubscript entry "hex"
  let effects ← parseEffects entry
  pure (number, { color := hex, effects := effects })

/-- Processing of the `sephiroth` (`isSeph = true`) or `paths` section
of one scale, from `src/color_utils.py` lines 70-94 and 96-120. -/
def processSection (isSeph : Bool) (name : String) (scaleData : Yaml)
    (result : ColorTable) : Except PyErr ColorTable := do
  let key := if isSeph then "sephiroth" else "paths"
  let has ← pyContains key scaleData
  if has then
    let lst ← pySubscript scaleData key
    let entries ← pyIter lst
    entries.foldlM
      (fun res entry => do
        let (num, info) ← parseEntry entry
        pure (tableUpdate res name (fun sd =>
          if isSeph then { sd with sephiroth := elemSet sd.sephiroth num info }
          else { sd with paths := elemSet sd.paths num info })))
      result
  else
    pure result

/-- Processing of one scale from the `scales` dictionary; scale names
absent from the pre-initialized result are skipped. -/
def processScale (result : ColorTable) (item : String × Yaml) : Except PyErr ColorTable := do
  if result.any (fun kv => kv.1 == item.1) then
    let r1 ← processSection true item.1 item.2 result
    processSection false item.1 item.2 r1
  else
    pure result

/-- The pre-initialized result dictionary (`src/color_utils.py` lines
57-62): the four scheme keys with empty sub-tables. -/
def initResult : ColorTable :=
  [("king", { sephiroth := [], paths := [] }),
   ("queen", { sephiroth := [], paths := [] }),
   ("prince", { sephiroth := [], paths := [] }),
   ("princess", { sephiroth := [], paths := [] })]

/-- Processing of a successfully loaded YAML document, from
`src/color_utils.py` lines 56-122. -/
def processScales (yamlData : Yaml) : Except PyErr ColorTable := do
  let hasScales ← pyContains "scales" yamlData
  if hasScales then
    let scales ← pySubscript yamlData "scales"
    let items ← pyItems scales
    items.foldlM processScale initResult
  else
    pure initResult

/-- Outcome of the `open`/`yaml.safe_load` step at the top of
`parse_color_scales`: the file may be missing, the document may fail to
parse as YAML, or a document is produced. -/
inductive LoadResult where
  | fileNotFound
  | yamlError
  | loaded (doc : Yaml)
deriving DecidableEq, Repr

/-- The full `ColorParser.parse_color_scales` contract
(`src/color_utils.py` lines 46-122): the two caught exceptions yield an
empty table plus one printed warning; a loaded document is processed
(and that processing can itself raise). -/
def parse_color_scales (input : LoadResult) : List String × Except PyErr ColorTable :=
  match input with
  | .fileNotFound => (["Color scales file not found"], .ok [])
  | .yamlError => (["Error parsing YAML file"], .ok [])
  | .loaded doc => ([], processScales doc)

/-!
The diagram model, from `src/tol/TreeOfLife.py`.
-/

/-- The five color schemes (`ColorScheme` enum in `src/color_utils.py`). -/
inductive ColorScheme where
  | plain
  | king
  | queen
  | prince
  | princess
deriving DecidableEq, Repr

/-- The `value` string of each enum member. -/
def ColorScheme.value : ColorScheme → String
  | .plain => "plain"
  | .king => "king"
  | .queen => "queen"
  | .prince => "prince"
  | .princess => "princess"

/-- The `Sephirah` record (a `NamedTuple` in the source).  Colors are
dynamic Python values: the defaults are hex strings, but a scheme
lookup installs whatever the YAML document carried. -/
structure Sephirah where
  number : Int
  name : String
  coord : ℚ × ℚ
  color : Yaml
  color_effect : Option EffectInfo
deriving DecidableEq, Repr

/-- The `Path` record (a `NamedTuple` in the source); `connects` holds
the 0-based indices of the two endpoint sephiroth. -/
structure Path where
  number : Int
  connects : Int × Int
  color : Yaml
  color_effect : Option EffectInfo
deriving DecidableEq, Repr

/-- Mutable state of one `TreeOfLife` instance (the fields the claims
exercise; rendering-only scalars such as figure size are omitted).
The dictionaries `self.sephiroth` and `self.paths` are modelled as
lists in insertion order, looked up by the `number` field. -/
structure TreeState where
  sphere_scale_factor : ℚ
  spacing_factor : ℚ
  sephiroth_color_scheme : ColorScheme
  path_color_scheme : ColorScheme
  color_data : ColorTable
  sephiroth : List Sephirah
  paths : List Path
  daath : Sephirah
deriving DecidableEq, Repr

/-- `DEFAULT_SEPHIROTH_COLORS` from `src/color_utils.py` lines 126-138
(every entry is white). -/
def DEFAULT_SEPHIROTH_COLORS : List (Int × String) :=
  [(0, "#FFFFFF"), (1, "#FFFFFF"), (2, "#FFFFFF"), (3, "#FFFFFF"),
   (4, "#FFFFFF"), (5, "#FFFFFF"), (6, "#FFFFFF"), (7, "#FFFFFF"),
   (8, "#FFFFFF"), (9, "#FFFFFF"), (10, "#FFFFFF")]

/-- `DEFAULT_PATH_COLORS` from `src/color_utils.py` lines 140-144:
white for every path number 11-32. -/
def DEFAULT_PATH_COLORS : List (Int × String) :=
  (List.range 22).map (fun i => ((i : Int) + 11, "#FFFFFF"))

/-- Dictionary lookup in a default-color table.  The source indexes the
dictionary directly; every lookup it performs is at a key the table has
(and all entries equal the fallback anyway), so the total `getD` form
is observationally identical. -/
def defaultLookup (tbl : List (Int × String)) (n : Int) : String :=
  ((tbl.find? (fun kv => kv.1 == n)).map (fun kv => kv.2)).getD "#FFFFFF"

/-- `self.vertical_shift = -0.5 * self.spacing_factor` (line 69). -/
def vertical_shift (spacing : ℚ) : ℚ := -0.5 * spacing

/-- The ten sephiroth with their fixed coordinates, from
`_init_sephiroth` (lines 198-231); colors are the defaults. -/
def init_sephiroth (spacing : ℚ) : List Sephirah :=
  let vs := vertical_shift spacing
  [{ number := 1, name := "Kether", coord := (0 * spacing, 9 * spacing),
     color := .str (defaultLookup DEFAULT_SEPHIROTH_COLORS 1), color_effect := none },
   { number := 2, name := "Chokmah", coord := (2.0 * spacing, 8.0 * spacing + vs),
     color := .str (defaultLookup DEFAULT_SEPHIROTH_COLORS 2), color_effect := none },
   { number := 3, name := "Binah", coord := (-2.0 * spacing, 8.0 * spacing + vs),
     color := .str (defaultLookup DEFAULT_SEPHIROTH_COLORS 3), color_effect := none },
   { number := 4, name := "Chesed", coord := (2.0 * spacing, 5.5 * spacing + vs),
     color := .str (defaultLookup DEFAULT_SEPHIROTH_COLORS 4), color_effect := none },
   { number := 5, name := "Geburah", coord := (-2.0 * spacing, 5.5 * spacing + vs),
     color := .str (defaultLookup DEFAULT_SEPHIROTH_COLORS 5), color_effect := none },
   { number := 6, name := "Tiphereth", coord := (0 * spacing, 4.25 * spacing + vs),
     color := .str (defaultLookup DEFAULT_SEPHIROTH_COLORS 6), color_effect := none },
   { number := 7, name := "Netzach", coord := (2.0 * spacing, 3.0 * spacing + vs),
     color := .str (defaultLookup DEFAULT_SEPHIROTH_COLORS 7), color_effect := none },
   { number := 8, name := "Hod", coord := (-2.0 * spacing, 3.0 * spacing + vs),
     color := .str (defaultLookup DEFAULT_SEPHIROTH_COLORS 8), color_effect := none },
   { number := 9, name := "Yesod", coord := (0 * spacing, 1.75 * spacing + vs),
     color := .str (defaultLookup DEFAULT_SEPHIROTH_COLORS 9), color_effect := none },
   { number := 10, name := "Malkuth", coord := (0 * spacing, -0.7 * spacing + vs),
     color := .str (defaultLookup DEFAULT_SEPHIROTH_COLORS 10), color_effect := none }]

/-- The 22 path connections from `_init_paths` (lines 233-271), with
`connects` already converted to 0-based indices as in the source. -/
def init_paths : List Path :=
  [{ number := 11, connects := (0, 1), color := .str (defaultLookup DEFAULT_PATH_COLORS 11), color_effect := none },
   { number := 12, connects := (0, 2), color := .str (defaultLookup DEFAULT_PATH_COLORS 12), color_effect := none },
   { number := 13, connects := (0, 5), color := .str (defaultLookup DEFAULT_PATH_COLORS 13), color_effect := none },
   { number := 14, connects := (1, 2), color := .str (defaultLookup DEFAULT_PATH_COLORS 14), color_effect := none },
   { number := 15, connects := (1, 5), color := .str (defaultLookup DEFAULT_PATH_COLORS 15), color_effect := none },
   { number := 16, connects := (1, 3), color := .str (defaultLookup DEFAULT_PATH_COLORS 16), color_effect := none },
   { number := 17, connects := (2, 5), color := .str (defaultLookup DEFAULT_PATH_COLORS 17), color_effect := none },
   { number := 18, connects := (2, 4), color := .str (defaultLookup DEFAULT_PATH_COLORS 18), color_effect := none },
   { number := 19, connects := (3, 4), color := .str (defaultLookup DEFAULT_PATH_COLORS 19), color_effect := none },
   { number := 20, connects := (3, 5), color := .str (defaultLookup DEFAULT_PATH_COLORS 20), color_effect := none },
   { number := 21, connects := (3, 6), color := .str (defaultLookup DEFAULT_PATH_COLORS 21), color_effect := none },
   { number := 22, connects := (4, 5), color := .str (defaultLookup DEFAULT_PATH_COLORS 22), color_effect := none },
   { number := 23, connects := (4, 7), color := .str (defaultLookup DEFAULT_PATH_COLORS 23), color_effect := none },
   { number := 24, connects := (5, 6), color := .str (defaultLookup DEFAULT_PATH_COLORS 24), color_effect := none },
   { number := 25, connects := (5, 8), color := .str (defaultLookup DEFAULT_PATH_COLORS 25), color_effect := none },
   { number := 26, connects := (5, 7), color := .str (defaultLookup DEFAULT_PATH_COLORS 26), color_effect := none },
   { number := 27, connects := (6, 7), color := .str (defaultLookup DEFAULT_PATH_COLORS 27), color_effect := none },
   { number := 28, connects := (6, 8), color := .str (defaultLookup DEFAULT_PATH_COLORS 28), color_effect := none },
   { number := 29, connects := (6, 9), color := .str (defaultLookup DEFAULT_PATH_COLORS 29), color_effect := none },
   { number := 30, connects := (7, 8), color := .str (defaultLookup DEFAULT_PATH_COLORS 30), color_effect := none },
   { number := 31, connects := (7, 9), color := .str (defaultLookup DEFAULT_PATH_COLORS 31), color_effect := none },
   { number := 32, connects := (8, 9), color := .str (defaultLookup DEFAULT_PATH_COLORS 32), color_effect := none }]

/-- The hidden sephirah from `_init_daath` (lines 273-283). -/
def init_daath (spacing : ℚ) : Sephirah :=
  { number := 0, name := "Da\x27ath",
    coord := (0 * spacing, 6.75 * spacing + vertical_shift spacing),
    color := .str (defaultLookup DEFAULT_SEPHIROTH_COLORS 0),
    color_effect := none }

/-- `set_sephiroth_color_scheme` (lines 285-356).  Note the scheme
field is assigned before the unknown-scheme guard, so the early-return
branch still records the requested scheme.  The returned list contains
the warnings the source prints. -/
def set_sephiroth_color_scheme (scheme : ColorScheme) (st : TreeState) :
    TreeState × List String :=
  let st1 := { st with sephiroth_color_scheme := scheme }
  if scheme = ColorScheme.plain then
    ({ st1 with
        sephiroth := st1.sephiroth.map (fun s =>
          { number := s.number, name := s.name, coord := s.coord,
            color := .str (defaultLookup DEFAULT_SEPHIROTH_COLORS s.number),
            color_effect := none }),
        daath :=
          { number := st1.daath.number, name := st1.daath.name, coord := st1.daath.coord,
            color := .str (defaultLookup DEFAULT_SEPHIROTH_COLORS 0),
            color_effect := none } }, [])
  else
    let scheme_name := scheme.value
    if st1.color_data.isEmpty || (tableLookup st1.color_data scheme_name).isNone then
      (st1, ["Warning: Color scheme not found. Using default colors."])
    else
      let sd := (tableLookup st1.color_data scheme_name).getD { sephiroth := [], paths := [] }
      let updated := st1.sephiroth.map (fun s =>
        match elemLookup sd.sephiroth (.int s.number) with
        | some info =>
          { number := s.number, name := s.name, coord := s.coord,
            color := info.color, color_effect := info.effects }
        | none => s)
      let newDaath :=
        match elemLookup sd.sephiroth (.int 0) with
        | some info =>
          { number := st1.daath.number, name := st1.daath.name, coord := st1.daath.coord,
            color := info.color, color_effect := info.effects }
        | none => st1.daath
      ({ st1 with sephiroth := updated, daath := newDaath }, [])

/-- `set_path_color_scheme` (lines 358-407), analogous to the
sephiroth setter but with no hidden-node special case. -/
def set_path_color_scheme (scheme : ColorScheme) (st : TreeState) :
    TreeState × List String :=
  let st1 := { st with path_color_scheme := scheme }
  if scheme = ColorScheme.plain then
    ({ st1 with
        paths := st1.paths.map (fun p =>
          { number := p.number, connects := p.connects,
            color := .str (defaultLookup DEFAULT_PATH_COLORS p.number),
            color_effect := none }) }, [])
  else
    let scheme_name := scheme.value
    if st1.color_data.isEmpty || (tableLookup st1.color_data scheme_name).isNone then
      (st1, ["Warning: Color scheme not found. Using default colors."])
    else
      let sd := (tableLookup st1.color_data scheme_name).getD { sephiroth := [], paths := [] }
      let updated := st1.paths.map (fun p =>
        match elemLookup sd.paths (.int p.number) with
        | some info =>
          { number := p.number, connects := p.connects,
            color := info.color, color_effect := info.effects }
        | none => p)
      ({ st1 with paths := updated }, [])

/-- `TreeOfLife.__init__` (lines 46-98) up to the point where the two
color schemes have been applied; the file read is abstracted into the
`table` argument (the result of `_load_color_data`). -/
def initTree (sphereScale spacing : ℚ) (sScheme pScheme : ColorScheme)
    (table : ColorTable) : TreeState × List String :=
  let st0 : TreeState :=
    { sphere_scale_factor := sphereScale,
      spacing_factor := spacing,
      sephiroth_color_scheme := sScheme,
      path_color_scheme := pScheme,
      color_data := table,
      sephiroth := init_sephiroth spacing,
      paths := init_paths,
      daath := init_daath spacing }
  let r1 := set_sephiroth_color_scheme sScheme st0
  let r2 := set_path_color_scheme pScheme r1.1
  (r2.1, r1.2 ++ r2.2)

/-- `self.circle_radius = self.base_radius * self.sphere_scale_factor`
with `base_radius = 0.5` (lines 67-68). -/
def circle_radius (st : TreeState) : ℚ := 0.5 * st.sphere_scale_factor

/-- `_get_connected_paths` (lines 915-932): numbers of the paths whose
`connects` pair contains the 0-based index of the given sephirah. -/
def get_connected_paths (st : TreeState) (sephirah_num : Int) : List Int :=
  let idx := sephirah_num - 1
  (st.paths.filter (fun p => p.connects.1 == idx || p.connects.2 == idx)).map
    (fun p => p.number)

/-- `_get_connected_sephiroth` (lines 934-959): the 1-based numbers at
the other end of each touching path, plus the hidden node for any
focus 1-6.  The Python set is modelled as a list; all claims about it
are membership statements, for which the representation is faithful. -/
def get_connected_sephiroth (st : TreeState) (sephirah_num : Int) : List Int :=
  let idx := sephirah_num - 1
  let connected :=
    (st.paths.filter (fun p => p.connects.1 == idx || p.connects.2 == idx)).map
      (fun p => (if p.connects.2 == idx then p.connects.1 else p.connects.2) + 1)
  if 1 ≤ sephirah_num ∧ sephirah_num ≤ 6 then connected ++ [0] else connected

/-!
The observable color decisions of `TreeOfLife.render` (lines 494-913).
The model records, per render call, which paths and sephiroth are
drawn and with which fill color, and whether and in which color the
hidden node is drawn.  Pure geometry (figure sizes, axis limits, line
widths, z-orders) and text labels are not needed by any claim and are
omitted.
-/

/-- `paths_underneath` (line 601): drawn at a lower z-order, in their
own loop after the normal paths. -/
def paths_underneath : List Int := [13, 15, 17, 25]

/-- `paths_special` (lines 602-603): the horizontal paths, drawn last. -/
def paths_special : List Int := [14, 19, 27]

/-- Membership of a path number in `paths_to_draw` (lines 512-551): a
restricted set only when the focus argument is present and within
1-10, otherwise every path. -/
def pathToDraw (st : TreeState) (focus : Option Int) (num : Int) : Bool :=
  match focus with
  | some f =>
    if 1 ≤ f ∧ f ≤ 10 then (get_connected_paths st f).contains num else true
  | none => true

/-- Membership of a sephirah number in `sephiroth_to_draw` (lines
512-551), the connected set plus the focus itself for a valid focus. -/
def sephToDraw (st : TreeState) (focus : Option Int) (num : Int) : Bool :=
  match focus with
  | some f =>
    if 1 ≤ f ∧ f ≤ 10 then
      (get_connected_sephiroth st f).contains num || num == f
    else true
  | none => true

/-- Color of the inner stroke of one drawn path (lines 622-647 and the
two analogous blocks): gray out any path not touching the focus, and
draw grayed paths with the neutral inner color `white`. -/
def pathInnerColor (focus : Option Int) (p : Path) : Yaml :=
  let path_color : Yaml :=
    match focus with
    | some f =>
      if p.connects.1 == f - 1 || p.connects.2 == f - 1 then p.color
      else .str "#888888"
    | none => p.color
  if path_color == Yaml.str "#888888" then .str "white" else path_color

/-- Face color of one drawn sephirah circle (lines 748-758): every
sephirah other than the focus is grayed whenever a focus argument is
present. -/
def sephFaceColor (focus : Option Int) (s : Sephirah) : Yaml :=
  match focus with
  | some f => if s.number = f then s.color else .str "#E0E0E0"
  | none => s.color

/-- The drawn paths in drawing order: the normal paths in dictionary
order, then the underneath group, then the special group (lines
605-738); each group keeps only members of `paths_to_draw`. -/
def pathsInOrder (st : TreeState) (focus : Option Int) : List Path :=
  (st.paths.filter (fun p =>
      pathToDraw st focus p.number
        && !(paths_underneath.contains p.number)
        && !(paths_special.contains p.number)))
  ++ (paths_underneath.filterMap (fun n =>
        if pathToDraw st focus n then st.paths.find? (fun p => p.number == n) else none))
  ++ (paths_special.filterMap (fun n =>
        if pathToDraw st focus n then st.paths.find? (fun p => p.number == n) else none))

/-- Face color of the hidden node when it is drawn at all (lines
816-845): drawn only with no focus or focus 1 or 6; inside that block
a focus outside `[1, 6]` would be grayed. -/
def daathFace (st : TreeState) (focus : Option Int) : Option Yaml :=
  if focus = none ∨ focus = some 1 ∨ focus = some 6 then
    some (match focus with
      | some f => if f = 1 ∨ f = 6 then st.daath.color else .str "#E0E0E0"
      | none => st.daath.color)
  else none

/-- The color decisions of one render call. -/
structure RenderOut where
  pathsDrawn : List (Int × Yaml)
  sephsDrawn : List (Int × Yaml)
  daathDrawn : Option Yaml
deriving DecidableEq, Repr

/-- `TreeOfLife.render` restricted to its color decisions: which paths
are drawn with which inner color, which sephiroth with which face
color, and whether and how the hidden node is drawn. -/
def render (st : TreeState) (focus_sephirah : Option Int) : RenderOut :=
  { pathsDrawn :=
      (pathsInOrder st focus_sephirah).map
        (fun p => (p.number, pathInnerColor focus_sephirah p)),
    sephsDrawn :=
      (st.sephiroth.filter (fun s => sephToDraw st focus_sephirah s.number)).map
        (fun s => (s.number, sephFaceColor focus_sephirah s)),
    daathDrawn := daathFace st focus_sephirah }

/-!
Color utilities from `src/color_utils.py`: contrast selection, hex
conversion and blending.  Hex strings follow the `#RRGGBB` shape used
throughout the program; the matplotlib converters are modelled on that
shape and fail (`ValueError`) on anything else, as `to_rgb` does on an
unrecognized string.
-/

/-- Numeric value of one hexadecimal digit. -/
def hexDigitVal (c : Char) : Option Nat :=
  if '0' ≤ c ∧ c ≤ '9' then some (c.toNat - Char.toNat '0')
  else if 'a' ≤ c ∧ c ≤ 'f' then some (c.toNat - Char.toNat 'a' + 10)
  else if 'A' ≤ c ∧ c ≤ 'F' then some (c.toNat - Char.toNat 'A' + 10)
  else none

/-- Python `int(s, 16)` on a nonempty all-hex string. -/
def int16 (cs : List Char) : Except PyErr Int :=
  match cs.mapM hexDigitVal with
  | some ds =>
    if ds.isEmpty then .error .valueError
    else .ok (ds.foldl (fun a d => a * 16 + (d : Int)) 0)
  | none => .error .valueError

/-- The decision core of `get_contrasting_text_color`
(`src/color_utils.py` lines 437-447), after the hex string has been
split into channel values: the bright-green override, then the
weighted-luminance comparison against the fixed threshold 150 (strict
`<`, white below). -/
def decideTextColor (r g b : Int) : String :=
  if r = 0 ∧ 240 < g ∧ b = 0 then "#000000"
  else if (0.299 : ℚ) * r + 0.587 * g + 0.114 * b < 150 then "#FFFFFF"
  else "#000000"

/-- `get_contrasting_text_color` (lines 422-447): strip leading `#`
characters, read the three two-digit channel slices, then decide. -/
def get_contrasting_text_color (background_color : String) : Except PyErr String := do
  let bg := background_color.toList.dropWhile (fun c => c == '#')
  let r ← int16 (bg.take 2)
  let g ← int16 ((bg.drop 2).take 2)
  let b ← int16 ((bg.drop 4).take 2)
  pure (decideTextColor r g b)

/-- Round-half-to-even on rationals, as `round` behaves on Python
floats (used inside matplotlib `to_hex`). -/
def pyRound (q : ℚ) : Int :=
  let f := ⌊q⌋
  let frac := q - f
  if frac < 1 / 2 then f
  else if 1 / 2 < frac then f + 1
  else if f % 2 = 0 then f else f + 1

/-- matplotlib `to_rgb` on a `#RRGGBB` hex string: the three channels
as rationals in `[0, 1]`; any other value is rejected. -/
def to_rgb (c : Yaml) : Except PyErr (ℚ × ℚ × ℚ) :=
  match c with
  | .str s =>
    match s.toList with
    | '#' :: rest =>
      if rest.length = 6 then do
        let r ← int16 (rest.take 2)
        let g ← int16 ((rest.drop 2).take 2)
        let b ← int16 ((rest.drop 4).take 2)
        pure ((r : ℚ) / 255, (g : ℚ) / 255, (b : ℚ) / 255)
      else .error .valueError
    | _ => .error .valueError
  | _ => .error .valueError

/-- Lowercase hex digit character. -/
def hexChar (n : Nat) : Char :=
  if n < 10 then Char.ofNat (Char.toNat '0' + n)
  else Char.ofNat (Char.toNat 'a' + (n - 10))

/-- Two lowercase hex digits of a byte value. -/
def hexByte (n : Int) : String :=
  String.mk [hexChar (n.toNat / 16 % 16), hexChar (n.toNat % 16)]

/-- matplotlib `to_hex` on an rgb triple: `#` plus three rounded
lowercase byte values. -/
def to_hex (r g b : ℚ) : String :=
  "#" ++ hexByte (pyRound (r * 255)) ++ hexByte (pyRound (g * 255))
      ++ hexByte (pyRound (b * 255))

/-- `blend_colors` (`src/color_utils.py` lines 147-168): per-channel
weighted average of the two colors, weight `w` on the first. -/
def blend_colors (color1 color2 : Yaml) (w : ℚ) : Except PyErr String := do
  let rgb1 ← to_rgb color1
  let rgb2 ← to_rgb color2
  pure (to_hex (rgb1.1 * w + rgb2.1 * (1 - w))
               (rgb1.2.1 * w + rgb2.2.1 * (1 - w))
               (rgb1.2.2 * w + rgb2.2.2 * (1 - w)))

/-!
Effect rendering from `src/color_utils.py` (`apply_color_effect`,
`apply_path_effect`).  Geometry is over the reals.  The process-wide
numpy RNG is threaded explicitly as `RngState`: `np.random.seed(n)`
replaces the stream position with a state determined by `n` alone, and
each `np.random.uniform(lo, hi)` call consumes one value of the seeded
stream, an arbitrary function `family` into `[0, 1)` (hypothesized
where a property needs the range, as numpy guarantees it).
-/

/-- Explicit state of the process-wide numpy RNG. -/
structure RngState where
  family : Nat → Nat → ℝ
  seed : Nat
  pos : Nat

/-- `np.random.seed(n)`: reset the stream deterministically from `n`. -/
def npSeed (n : Nat) (s : RngState) : RngState :=
  { family := s.family, seed := n, pos := 0 }

/-- `np.random.uniform(lo, hi)`: the next stream value scaled into
`[lo, hi)`, advancing the stream. -/
noncomputable def npUniform (lo hi : ℝ) (s : RngState) : ℝ × RngState :=
  (lo + (hi - lo) * s.family s.seed s.pos, { s with pos := s.pos + 1 })

/-- A secondary drawing primitive emitted by an effect. -/
inductive Prim where
  | circle (center : ℝ × ℝ) (r : ℝ)
  | line (a b : ℝ × ℝ)

/-- Secondary-color resolution shared by all effect branches
(`src/color_utils.py` e.g. lines 191-198): the single `color2_hex`
field, else the `hex` of the first entry of the `colors` list, else
white. -/
def resolveColor2 (eff : EffectInfo) : Except PyErr Yaml :=
  match eff.color2 with
  | some ch => .ok ch.2
  | none =>
    match eff.colors with
    | some cs => do
      let n ← pyLen cs
      if 0 < n then
        let c0 ← pyIndex0 cs
        pyGetDefault c0 "hex" (.str "#FFFFFF")
      else .ok (.str "#FFFFFF")
    | none => .ok (.str "#FFFFFF")

/-- One fleck of the sephirah speckle loop (lines 206-226): an angle, a
radial distance within 90% of the radius, and a size are drawn in that
order. -/
noncomputable def drawFleck (x y radius : ℝ) (s : RngState) : Prim × RngState :=
  let a := npUniform 0 (2 * Real.pi) s
  let r := npUniform 0 (radius * 0.9) a.2
  let sz := npUniform 0.02 0.05 r.2
  (Prim.circle (x + r.1 * Real.cos a.1, y + r.1 * Real.sin a.1) (sz.1 * radius), sz.2)

/-- The sephirah speckle loop, drawing `n` flecks. -/
noncomputable def drawFlecks (x y radius : ℝ) : Nat → RngState → List Prim × RngState
  | 0, s => ([], s)
  | n + 1, s =>
    let p := drawFleck x y radius s
    let rest := drawFlecks x y radius n p.2
    (p.1 :: rest.1, rest.2)

/-- The `flecked` branch of `apply_color_effect` for a sephirah (lines
200-226): seed the RNG with the element number, then draw 50 flecks. -/
noncomputable def apply_color_effect_flecked (number : Nat) (x y radius : ℝ)
    (s : RngState) : List Prim × RngState :=
  drawFlecks x y radius 50 (npSeed number s)

/-- The `rayed` branch of `apply_color_effect` for a sephirah (lines
242-260): 12 deterministic rays from the center. -/
noncomputable def apply_color_effect_rayed (x y radius : ℝ) : List Prim :=
  (List.range 12).map (fun i =>
    let angle := (i : ℝ) * (2 * Real.pi / 12)
    Prim.line (x, y)
      (x + radius * 1.5 * Real.cos angle, y + radius * 1.5 * Real.sin angle))

/-- The `apply_color_effect` dispatcher (lines 171-282).  The `tinged`
branch computes a blended color with weight 0.7 and then does nothing
with it (`pass`): it emits no primitives and leaves the RNG alone. -/
noncomputable def apply_color_effect (element_type : String) (number : Nat) (x y : ℝ)
    (color : Yaml) (effect : Option EffectInfo) (radius : Option ℝ) (s : RngState) :
    Except PyErr (List Prim × RngState) :=
  match effect with
  | none => .ok ([], s)
  | some eff =>
    if eff.type == Yaml.str "flecked" then do
      let _color2 ← resolveColor2 eff
      match radius with
      | some rad =>
        if element_type = "sephirah" ∧ rad ≠ 0 then
          .ok (apply_color_effect_flecked number x y rad s)
        else .ok ([], s)
      | none => .ok ([], s)
    else if eff.type == Yaml.str "rayed" then do
      let _color2 ← resolveColor2 eff
      match radius with
      | some rad =>
        if element_type = "sephirah" ∧ rad ≠ 0 then
          .ok (apply_color_effect_rayed x y rad, s)
        else .ok ([], s)
      | none => .ok ([], s)
    else if eff.type == Yaml.str "tinged" then do
      let tinge ← resolveColor2 eff
      let _blended ← blend_colors color tinge 0.7
      .ok ([], s)
    else .ok ([], s)

/-- numpy `arctan2(y, x)`. -/
noncomputable def atan2 (y x : ℝ) : ℝ :=
  if 0 < x then Real.arctan (y / x)
  else if x < 0 then
    (if 0 ≤ y then Real.arctan (y / x) + Real.pi else Real.arctan (y / x) - Real.pi)
  else if 0 < y then Real.pi / 2
  else if y < 0 then -(Real.pi / 2)
  else 0

/-- One fleck of the path speckle loop (`apply_path_effect`, lines
326-347): a position along the path in `[0.1, 0.9)` (excluding the
endpoints), a perpendicular offset, and a size, drawn in that order. -/
noncomputable def drawPathFleck (x1 y1 dx dy angle scale : ℝ) (s : RngState) :
    Prim × RngState :=
  let t := npUniform 0.1 0.9 s
  let off := npUniform (-0.05) 0.05 t.2
  let sz := npUniform 0.01 0.03 off.2
  (Prim.circle
     (x1 + t.1 * dx + off.1 * Real.sin angle,
      y1 + t.1 * dy - off.1 * Real.cos angle)
     (sz.1 * scale), sz.2)

/-- The path speckle loop, drawing `n` flecks. -/
noncomputable def drawPathFlecks (x1 y1 dx dy angle scale : ℝ) :
    Nat → RngState → List Prim × RngState
  | 0, s => ([], s)
  | n + 1, s =>
    let p := drawPathFleck x1 y1 dx dy angle scale s
    let rest := drawPathFlecks x1 y1 dx dy angle scale n p.2
    (p.1 :: rest.1, rest.2)

/-- The `flecked` branch of `apply_path_effect` (lines 304-347): the
fleck count scales with the path length, the RNG is seeded with the
path number, and flecks are scattered along the path with small
perpendicular jitter. -/
noncomputable def apply_path_effect_flecked (path_num : Nat) (x1 y1 x2 y2 scale : ℝ)
    (s : RngState) : List Prim × RngState :=
  let dx := x2 - x1
  let dy := y2 - y1
  let path_length := Real.sqrt (dx * dx + dy * dy)
  let angle := atan2 dy dx
  let num_flecks := (⌊path_length * 15⌋).toNat
  drawPathFlecks x1 y1 dx dy angle scale num_flecks (npSeed path_num s)

/-!
Concrete states and documents used by the theorems.
-/

/-- A `TreeOfLife` built with the default constructor arguments
(`sphere_scale_factor = 1.75`, `spacing_factor = 1.5`, plain schemes)
and a missing color-scales file (empty table). -/
def standardTree : TreeState := (initTree 1.75 1.5 .plain .plain []).1

/-- Coordinate of the sephirah with a given number (zero if absent). -/
def sephCoord (st : TreeState) (n : Int) : ℚ × ℚ :=
  ((st.sephiroth.find? (fun s => s.number == n)).map (fun s => s.coord)).getD (0, 0)

/-- Application of the plain scheme to both collections. -/
def applyPlainBoth (st : TreeState) : TreeState :=
  (set_path_color_scheme .plain (set_sephiroth_color_scheme .plain st).1).1

/-- A structurally well-formed scales document whose single sephirah
entry lacks the `hex` field. -/
def docMissingHex : Yaml :=
  .ofMap [("scales", .ofMap [("king", .ofMap [("sephiroth",
    .ofList [.ofMap [("number", .int 1)]])])])]

/-- A scales document whose single sephirah entry carries a malformed
(non-string) hex value. -/
def docBadHex : Yaml :=
  .ofMap [("scales", .ofMap [("king", .ofMap [("sephiroth",
    .ofList [.ofMap [("number", .int 1), ("hex", .int 5)]])])])]

/-- The table `docBadHex` parses to: the malformed hex value is stored
unchanged. -/
def badHexTable : ColorTable :=
  [("king", { sephiroth := [(.int 1, { color := .int 5, effects := none })], paths := [] }),
   ("queen", { sephiroth := [], paths := [] }),
   ("prince", { sephiroth := [], paths := [] }),
   ("princess", { sephiroth := [], paths := [] })]

/-- A blend-tint (`tinged`) effect descriptor with an explicit
secondary hex color. -/
def tingedEffect : EffectInfo :=
  { type := .str "tinged", color2 := some (.str "gray", .str "#646464"), colors := none }

/-- A color table whose king scale gives sephirah 1 a base color and a
`tinged` effect. -/
def tingedTable : ColorTable :=
  [("king", { sephiroth := [(.int 1, { color := .str "#C86400", effects := some tingedEffect })],
              paths := [] }),
   ("queen", { sephiroth := [], paths := [] }),
   ("prince", { sephiroth := [], paths := [] }),
   ("princess", { sephiroth := [], paths := [] })]

/-- A tree using the king scale of `tingedTable`. -/
def tingedTree : TreeState := (initTree 1.75 1.5 .king .plain tingedTable).1

/-- The first path record of a freshly plain-reset tree. -/
def plainPath11 : Path :=
  { number := 11, connects := (0, 1), color := .str "#FFFFFF", color_effect := none }

/-!
Helper lemmas.
-/

/-- Bind of a success value in the `Except` monad. -/
lemma ok_bind {α β : Type} (a : α) (f : α → Except PyErr β) :
    (Except.ok a >>= f) = f a := rfl

/-- Bind of an error in the `Except` monad. -/
lemma error_bind {α β : Type} (e : PyErr) (f : α → Except PyErr β) :
    ((Except.error e : Except PyErr α) >>= f) = .error e := rfl

/-- `tableUpdate` never changes the key list of the table. -/
lemma tableUpdate_keys (t : ColorTable) (k : String) (f : SchemeData → SchemeData) :
    (tableUpdate t k f).map Prod.fst = t.map Prod.fst := by
  simp only [tableUpdate, List.map_map]
  apply List.map_congr_left
  intro kv _
  by_cases h : kv.1 = k <;> simp [h]

/-- A `foldlM` over `Except` whose step preserves the key list
preserves the key list. -/
lemma foldlM_ok_keys {α : Type} (step : ColorTable → α → Except PyErr ColorTable)
    (hstep : ∀ t a t2, step t a = .ok t2 → t2.map Prod.fst = t.map Prod.fst) :
    ∀ (l : List α) (init r : ColorTable), l.foldlM step init = .ok r →
      r.map Prod.fst = init.map Prod.fst := by
  intro l
  induction l with
  | nil =>
    intro init r h
    simp only [List.foldlM_nil] at h
    cases h
    rfl
  | cons a l ih =>
    intro init r h
    rw [List.foldlM_cons] at h
    cases hs : step init a with
    | error e => rw [hs, error_bind] at h; cases h
    | ok t1 =>
      rw [hs, ok_bind] at h
      exact (ih t1 r h).trans (hstep init a t1 hs)

/-- `processSection` preserves the key list of the table. -/
lemma processSection_keys (b : Bool) (name : String) (sd : Yaml) (res r : ColorTable)
    (h : processSection b name sd res = .ok r) :
    r.map Prod.fst = res.map Prod.fst := by
  simp only [processSection] at h
  cases hc : pyContains (if b then "sephiroth" else "paths") sd with
  | error e => rw [hc, error_bind] at h; cases h
  | ok has =>
    rw [hc, ok_bind] at h
    cases has with
    | false => simp only [Bool.false_eq_true, if_false] at h; cases h; rfl
    | true =>
      simp only [if_true] at h
      cases hl : pySubscript sd (if b then "sephiroth" else "paths") with
      | error e => rw [hl, error_bind] at h; cases h
      | ok lst =>
        rw [hl, ok_bind] at h
        cases hi : pyIter lst with
        | error e => rw [hi, error_bind] at h; cases h
        | ok entries =>
          rw [hi, ok_bind] at h
          refine foldlM_ok_keys _ ?_ entries res r h
          intro t a t2 hstep
          cases hp : parseEntry a with
          | error e => rw [hp, error_bind] at hstep; cases hstep
          | ok ni =>
            rw [hp, ok_bind] at hstep
            cases hstep
            exact tableUpdate_keys t name _

/-- `processScale` preserves the key list of the table. -/
lemma processScale_keys (res : ColorTable) (item : String × Yaml) (r : ColorTable)
    (h : processScale res item = .ok r) :
    r.map Prod.fst = res.map Prod.fst := by
  simp only [processScale] at h
  by_cases hmem : res.any (fun kv => kv.1 == item.1)
  · rw [if_pos hmem] at h
    cases h1 : processSection true item.1 item.2 res with
    | error e => rw [h1, error_bind] at h; cases h
    | ok r1 =>
      rw [h1, ok_bind] at h
      exact (processSection_keys false item.1 item.2 r1 r h).trans
        (processSection_keys true item.1 item.2 res r1 h1)
  · rw [if_neg hmem] at h
    cases h
    rfl

/-- Every successfully processed document yields a table whose keys
are exactly the four scheme names, in order. -/
lemma processScales_keys (doc : Yaml) (t : ColorTable)
    (h : processScales doc = .ok t) :
    t.map Prod.fst = ["king", "queen", "prince", "princess"] := by
  simp only [processScales] at h
  cases hc : pyContains "scales" doc with
  | error e => rw [hc, error_bind] at h; cases h
  | ok has =>
    rw [hc, ok_bind] at h
    cases has with
    | false => simp only [Bool.false_eq_true, if_false] at h; cases h; rfl
    | true =>
      simp only [if_true] at h
      cases hs : pySubscript doc "scales" with
      | error e => rw [hs, error_bind] at h; cases h
      | ok scales =>
        rw [hs, ok_bind] at h
        cases hi : pyItems scales with
        | error e => rw [hi, error_bind] at h; cases h
        | ok items =>
          rw [hi, ok_bind] at h
          exact foldlM_ok_keys processScale
            (fun t1 a t2 hstep => processScale_keys t1 a t2 hstep) items initResult t h

/-- A key listed in a table has a successful `find?`. -/
lemma find?_isSome_of_mem_keys (t : ColorTable) (k : String)
    (hk : k ∈ t.map Prod.fst) : (t.find? (fun kv => kv.1 == k)).isSome := by
  induction t with
  | nil => simp at hk
  | cons hd tl ih =>
    simp only [List.map_cons, List.mem_cons] at hk
    by_cases h : hd.1 == k
    · simp [List.find?, h]
    · rcases hk with h1 | h2
      · exact absurd (beq_iff_eq.mpr h1.symm) h
      · rw [List.find?]
        rw [Bool.not_eq_true] at h
        rw [h]
        exact ih h2

/-- Every path the render loops touch comes from `st.paths`. -/
lemma mem_of_pathsInOrder {st : TreeState} {focus : Option Int} {p : Path}
    (hp : p ∈ pathsInOrder st focus) : p ∈ st.paths := by
  simp only [pathsInOrder, List.mem_append] at hp
  rcases hp with (h | h) | h
  · exact (List.mem_filter.mp h).1
  · obtain ⟨n, _, hn⟩ := List.mem_filterMap.mp h
    by_cases hd : pathToDraw st focus n
    · rw [if_pos hd] at hn; exact List.mem_of_find?_eq_some hn
    · rw [if_neg hd] at hn; cases hn
  · obtain ⟨n, _, hn⟩ := List.mem_filterMap.mp h
    by_cases hd : pathToDraw st focus n
    · rw [if_pos hd] at hn; exact List.mem_of_find?_eq_some hn
    · rw [if_neg hd] at hn; cases hn

/-- The 22 standard paths connect 0-based indices in `[0, 9]`. -/
lemma standardTree_path_bounds :
    ∀ p ∈ standardTree.paths,
      0 ≤ p.connects.1 ∧ p.connects.1 ≤ 9 ∧ 0 ≤ p.connects.2 ∧ p.connects.2 ≤ 9 := by
  decide

/-- The ten standard sephiroth are numbered 1-10. -/
lemma standardTree_seph_bounds :
    ∀ s ∈ standardTree.sephiroth, 1 ≤ s.number ∧ s.number ≤ 10 := by
  decide

/-- Reseeding depends only on the stream family. -/
lemma npSeed_eq {s1 s2 : RngState} (h : s1.family = s2.family) (n : Nat) :
    npSeed n s1 = npSeed n s2 := by
  simp [npSeed, h]

/-- A point at distance `rv ∈ [0, bound]` from a center in direction
`a` stays within `bound` of the center. -/
lemma dist_circle (x y rv a bound : ℝ) (h0 : 0 ≤ rv) (hb : rv ≤ bound) :
    (x + rv * Real.cos a - x)^2 + (y + rv * Real.sin a - y)^2 ≤ bound^2 := by
  have hsc := Real.sin_sq_add_cos_sq a
  have hkey : (x + rv * Real.cos a - x)^2 + (y + rv * Real.sin a - y)^2 = rv^2 := by
    calc (x + rv * Real.cos a - x)^2 + (y + rv * Real.sin a - y)^2
        = rv^2 * (Real.sin a^2 + Real.cos a^2) := by ring
      _ = rv^2 := by rw [hsc, mul_one]
  rw [hkey]
  nlinarith [h0, hb]

/-- Node flecks stay within 90% of the radius of the node. -/
lemma drawFlecks_bound (x y rad : ℝ) (hrad : 0 ≤ rad) :
    ∀ (n : Nat) (s : RngState), (∀ i j, 0 ≤ s.family i j ∧ s.family i j < 1) →
      ∀ c r, Prim.circle c r ∈ (drawFlecks x y rad n s).1 →
        (c.1 - x)^2 + (c.2 - y)^2 ≤ (0.9 * rad)^2 := by
  intro n
  induction n with
  | zero =>
    intro s hs c r hmem
    simp [drawFlecks] at hmem
  | succ n ih =>
    intro s hs c r hmem
    simp only [drawFlecks, List.mem_cons] at hmem
    rcases hmem with h1 | h2
    · have hc : c = (x + (0 + (rad * 0.9 - 0) * s.family s.seed (s.pos + 1)) *
          Real.cos (0 + (2 * Real.pi - 0) * s.family s.seed s.pos),
          y + (0 + (rad * 0.9 - 0) * s.family s.seed (s.pos + 1)) *
          Real.sin (0 + (2 * Real.pi - 0) * s.family s.seed s.pos)) := by
        injection h1 with hc _
      subst hc
      have hv := hs s.seed (s.pos + 1)
      exact dist_circle x y _ _ (0.9 * rad)
        (by nlinarith [hv.1, hrad]) (by nlinarith [hv.2, hrad])
    · exact ih ((drawFleck x y rad s).2) hs c r h2

/-- The sine-cosine relation characterizing `atan2`: the angle points
along the vector `(x, y)`. -/
lemma sin_arctan_mul {y x : ℝ} (hx : x ≠ 0) :
    Real.sin (Real.arctan (y / x)) * x = Real.cos (Real.arctan (y / x)) * y := by
  have hcos : Real.cos (Real.arctan (y / x)) ≠ 0 := ne_of_gt (Real.cos_arctan_pos _)
  have ht := Real.tan_arctan (y / x)
  rw [Real.tan_eq_sin_div_cos] at ht
  field_simp at ht
  linarith [ht]

/-- The `atan2` direction of `(x, y)` satisfies
`sin A * x = cos A * y` for every input, including the axes. -/
lemma sin_atan2_mul (y x : ℝ) :
    Real.sin (atan2 y x) * x = Real.cos (atan2 y x) * y := by
  unfold atan2
  split_ifs with h1 h2 h3 h4 h5
  · exact sin_arctan_mul (ne_of_gt h1)
  · rw [Real.sin_add_pi, Real.cos_add_pi]
    have := sin_arctan_mul (y := y) (ne_of_lt h2)
    linarith [this]
  · rw [Real.sin_sub_pi, Real.cos_sub_pi]
    have := sin_arctan_mul (y := y) (ne_of_lt h2)
    linarith [this]
  · have hx : x = 0 := le_antisymm (not_lt.mp h1) (not_lt.mp h2)
    rw [hx, Real.sin_pi_div_two, Real.cos_pi_div_two]
    ring
  · have hx : x = 0 := le_antisymm (not_lt.mp h1) (not_lt.mp h2)
    rw [hx, Real.sin_neg, Real.cos_neg, Real.sin_pi_div_two, Real.cos_pi_div_two]
    ring
  · have hx : x = 0 := le_antisymm (not_lt.mp h1) (not_lt.mp h2)
    have hy : y = 0 := le_antisymm (not_lt.mp h4) (not_lt.mp h5)
    rw [hx, hy]
    ring

/-- Path flecks never land on either endpoint of the path. -/
lemma drawPathFlecks_ne (x1 y1 dx dy scale : ℝ) (hdd : 0 < dx * dx + dy * dy) :
    ∀ (n : Nat) (s : RngState), (∀ i j, 0 ≤ s.family i j ∧ s.family i j < 1) →
      ∀ c r, Prim.circle c r ∈ (drawPathFlecks x1 y1 dx dy (atan2 dy dx) scale n s).1 →
        c ≠ (x1, y1) ∧ c ≠ (x1 + dx, y1 + dy) := by
  intro n
  induction n with
  | zero =>
    intro s hs c r hmem
    simp [drawPathFlecks] at hmem
  | succ n ih =>
    intro s hs c r hmem
    simp only [drawPathFlecks, List.mem_cons] at hmem
    rcases hmem with h1 | h2
    · have hc : c = (x1 + (0.1 + (0.9 - 0.1) * s.family s.seed s.pos) * dx +
          (-0.05 + (0.05 - -0.05) * s.family s.seed (s.pos + 1)) * Real.sin (atan2 dy dx),
          y1 + (0.1 + (0.9 - 0.1) * s.family s.seed s.pos) * dy -
          (-0.05 + (0.05 - -0.05) * s.family s.seed (s.pos + 1)) * Real.cos (atan2 dy dx)) := by
        injection h1 with hc _
      subst hc
      have hv1 := hs s.seed s.pos
      have hid : Real.sin (atan2 dy dx) * dx - Real.cos (atan2 dy dx) * dy = 0 := by
        have := sin_atan2_mul dy dx
        linarith
      set t := 0.1 + (0.9 - 0.1) * s.family s.seed s.pos with hts
      set o := -0.05 + (0.05 - -0.05) * s.family s.seed (s.pos + 1) with hos
      clear_value t o
      have ht1 : (0.1 : ℝ) ≤ t := by rw [hts]; nlinarith [hv1.1]
      have ht2 : t < 0.9 := by rw [hts]; nlinarith [hv1.2]
      constructor
      · intro heq
        have e1 : t * dx + o * Real.sin (atan2 dy dx) = 0 := by
          have := congrArg Prod.fst heq
          simp at this
          linarith
        have e2 : t * dy - o * Real.cos (atan2 dy dx) = 0 := by
          have := congrArg Prod.snd heq
          simp at this
          linarith
        have hz : t * (dx * dx + dy * dy) = 0 := by
          linear_combination dx * e1 + dy * e2 - o * hid
        have hpos : 0 < t * (dx * dx + dy * dy) :=
          mul_pos (lt_of_lt_of_le (by norm_num) ht1) hdd
        linarith
      · intro heq
        have e1 : (t - 1) * dx + o * Real.sin (atan2 dy dx) = 0 := by
          have := congrArg Prod.fst heq
          simp at this
          linarith
        have e2 : (t - 1) * dy - o * Real.cos (atan2 dy dx) = 0 := by
          have := congrArg Prod.snd heq
          simp at this
          linarith
        have hz : (t - 1) * (dx * dx + dy * dy) = 0 := by
          linear_combination dx * e1 + dy * e2 - o * hid
        have htm : t - 1 < 0 := by linarith
        have hneg : (t - 1) * (dx * dx + dy * dy) < 0 :=
          mul_neg_of_neg_of_pos htm hdd
        linarith
    · exact ih ((drawPathFleck x1 y1 dx dy (atan2 dy dx) scale s).2) hs c r h2

/-!
Claim theorems.
-/

/-- C1 counterexample: rendering with the invalid focus 0 does not
behave as a no-focus render; the outputs differ (in particular the
hidden node is omitted and every element is grayed). -/
theorem C1_counterexample :
    render standardTree (some 0) ≠ render standardTree none := by
  decide

/-- C1 (amended): for every focus argument outside 1-10, the render
selects the same full sets of paths and sephiroth as a no-focus
render, but the non-`None` focus still triggers focus-mode coloring:
every drawn path gets the neutral grayed inner stroke, every sephirah
circle is filled with the focus gray, and the hidden node is not drawn
at all. -/
theorem C1_invalid_focus_grays :
    ∀ f : Int, ¬(1 ≤ f ∧ f ≤ 10) →
      (render standardTree (some f)).pathsDrawn.map Prod.fst =
        (render standardTree none).pathsDrawn.map Prod.fst ∧
      (render standardTree (some f)).sephsDrawn.map Prod.fst =
        (render standardTree none).sephsDrawn.map Prod.fst ∧
      (∀ pr ∈ (render standardTree (some f)).pathsDrawn, pr.2 = .str "white") ∧
      (∀ sr ∈ (render standardTree (some f)).sephsDrawn, sr.2 = .str "#E0E0E0") ∧
      (render standardTree (some f)).daathDrawn = none := by
  intro f h
  have hPath : pathToDraw standardTree (some f) = pathToDraw standardTree none := by
    funext n; simp [pathToDraw, h]
  have hSeph : sephToDraw standardTree (some f) = sephToDraw standardTree none := by
    funext n; simp [sephToDraw, h]
  have hlist : pathsInOrder standardTree (some f) = pathsInOrder standardTree none := by
    simp only [pathsInOrder, hPath]
  refine ⟨?_, ?_, ?_, ?_, ?_⟩
  · simp only [render, hlist, List.map_map]; simp [Function.comp]
  · simp only [render, hSeph, List.map_map]; simp [Function.comp]
  · intro pr hpr
    simp only [render, List.mem_map] at hpr
    obtain ⟨p, hp, rfl⟩ := hpr
    have hb := standardTree_path_bounds p (mem_of_pathsInOrder hp)
    have h1 : (p.connects.1 == f - 1) = false := by simp; omega
    have h2 : (p.connects.2 == f - 1) = false := by simp; omega
    simp [pathInnerColor, h1, h2]
  · intro sr hsr
    simp only [render, List.mem_map] at hsr
    obtain ⟨s, hs, rfl⟩ := hsr
    have hb := standardTree_seph_bounds s (List.mem_filter.mp hs).1
    have hne : ¬(s.number = f) := by omega
    simp [sephFaceColor, hne]
  · have hcond : ¬((some f : Option Int) = none ∨ (some f : Option Int) = some 1 ∨
        (some f : Option Int) = some 6) := by
      simp; omega
    simp [render, daathFace, hcond]
    omega

/-- C1 witness at the concrete invalid focus 0. -/
theorem C1_invalid_focus_grays_witness :
    (render standardTree (some 0)).daathDrawn = none :=
  (C1_invalid_focus_grays 0 (by decide)).2.2.2.2

/-- C2 counterexample: with an empty color table (the king scheme is
absent), `set_sephiroth_color_scheme` does mutate state: it records
the requested scheme in `sephiroth_color_scheme` even though it leaves
all element colors alone. -/
theorem C2_counterexample :
    standardTree.color_data = [] ∧
    standardTree.sephiroth_color_scheme = .plain ∧
    (set_sephiroth_color_scheme .king standardTree).1.sephiroth_color_scheme = .king ∧
    (set_sephiroth_color_scheme .king standardTree).1 ≠ standardTree := by
  refine ⟨by decide, by decide, by decide, ?_⟩
  intro h
  have := congrArg TreeState.sephiroth_color_scheme h
  simp only at this
  exact absurd this (by decide)

/-- C2 (amended): applying a non-plain scheme absent from the table
leaves every node and edge color and effect unchanged and reports
exactly one warning, but the stored current-scheme selector is still
updated to the requested scheme. -/
theorem C2_unknown_scheme_noop :
    ∀ (st : TreeState) (scheme : ColorScheme), scheme ≠ .plain →
      (st.color_data.isEmpty || (tableLookup st.color_data scheme.value).isNone) = true →
      set_sephiroth_color_scheme scheme st =
        ({ st with sephiroth_color_scheme := scheme },
         ["Warning: Color scheme not found. Using default colors."]) ∧
      set_path_color_scheme scheme st =
        ({ st with path_color_scheme := scheme },
         ["Warning: Color scheme not found. Using default colors."]) := by
  intro st scheme h hg
  constructor <;> simp [set_sephiroth_color_scheme, set_path_color_scheme, h, hg]

/-- C2 witness at the default (empty-table) tree and the king scheme. -/
theorem C2_unknown_scheme_noop_witness :
    set_sephiroth_color_scheme .king standardTree =
      ({ standardTree with sephiroth_color_scheme := .king },
       ["Warning: Color scheme not found. Using default colors."]) :=
  (C2_unknown_scheme_noop standardTree .king (by decide) (by decide)).1

/-- C3: the `tinged` (blend-tint) effect emits no extra primitives,
but the blended color is computed and then discarded: the base shape
of a tinged element is drawn with the unblended base color `#C86400`,
not with the weighted blend `#aa641e` that `blend_colors` produces
for it. -/
theorem C3_tinged_draws_unblended_base :
    (∀ s : RngState,
      apply_color_effect "sephirah" 1 0 0 (.str "#C86400") (some tingedEffect)
        (some (0.875 : ℝ)) s = .ok ([], s)) ∧
    (render tingedTree none).sephsDrawn.find? (fun pr => pr.1 == 1) =
      some (1, .str "#C86400") ∧
    blend_colors (.str "#C86400") (.str "#646464") 0.7 = .ok "#aa641e" ∧
    "#aa641e" ≠ "#C86400" := by
  refine ⟨fun s => rfl, by decide, ?_, by decide⟩
  have h1 : to_rgb (.str "#C86400") =
      .ok (((200:Int):ℚ)/255, ((100:Int):ℚ)/255, ((0:Int):ℚ)/255) := by rfl
  have h2 : to_rgb (.str "#646464") =
      .ok (((100:Int):ℚ)/255, ((100:Int):ℚ)/255, ((100:Int):ℚ)/255) := by rfl
  simp only [blend_colors, h1, h2, bind, Except.bind, pure, Except.pure]
  have e1 : (((200:Int):ℚ)/255 * (0.7) + ((100:Int):ℚ)/255 * (1 - 0.7)) = 170/255 := by
    norm_num
  have e2 : (((100:Int):ℚ)/255 * (0.7) + ((100:Int):ℚ)/255 * (1 - 0.7)) = 100/255 := by
    norm_num
  have e3 : (((0:Int):ℚ)/255 * (0.7) + ((100:Int):ℚ)/255 * (1 - 0.7)) = 30/255 := by
    norm_num
  rw [e1, e2, e3, to_hex]
  have f1 : ((170:ℚ)/255) * 255 = 170 := by norm_num
  have f2 : ((100:ℚ)/255) * 255 = 100 := by norm_num
  have f3 : ((30:ℚ)/255) * 255 = 30 := by norm_num
  rw [f1, f2, f3]
  have p1 : pyRound ((170:ℚ)) = 170 := by simp [pyRound]
  have p2 : pyRound ((100:ℚ)) = 100 := by simp [pyRound]
  have p3 : pyRound ((30:ℚ)) = 30 := by simp [pyRound]
  rw [p1, p2, p3]
  rfl

/-- C4 counterexample: the load operation can raise to its caller,
and a missing hex field is not replaced by white: on a well-formed
document whose entry lacks `hex`, processing raises `KeyError`. -/
theorem C4_counterexample :
    (parse_color_scales (.loaded docMissingHex)).2 = .error (.keyError "hex") := by
  rfl

/-- C4 (amended): only the two caught failure modes (missing file,
YAML parse error) are absorbed into an empty table plus one warning;
a loaded document of an unexpected shape raises (`TypeError` on an
integer document), and a malformed hex value is stored unchanged
rather than being replaced by white. -/
theorem C4_load_error_recovery :
    parse_color_scales .fileNotFound = (["Color scales file not found"], .ok []) ∧
    parse_color_scales .yamlError = (["Error parsing YAML file"], .ok []) ∧
    (parse_color_scales (.loaded (.int 42))).2 = .error .typeError ∧
    (parse_color_scales (.loaded docBadHex)).2 = .ok badHexTable := by
  exact ⟨rfl, rfl, rfl, rfl⟩

/-- C5 counterexample: at background `#969696` the perceived luminance
is exactly the threshold 150; the claim says at-or-below yields white,
but the code yields black text there. -/
theorem C5_counterexample :
    get_contrasting_text_color "#969696" = .ok "#000000" ∧
    (0.299 : ℚ) * 150 + 0.587 * 150 + 0.114 * 150 ≤ 150 := by
  constructor
  · have h1 : get_contrasting_text_color "#969696" = .ok (decideTextColor 150 150 150) := by
      rfl
    rw [h1, decideTextColor, if_neg (by decide), if_neg (by norm_num)]
  · norm_num

/-- C5 (amended): outside the bright-green hard override, the label
text is white exactly when the perceived luminance is strictly below
the threshold 150 (at or above it the text is black); the three
concrete scenarios resolve as documented. -/
theorem C5_luminance_threshold :
    (∀ r g b : Int, ¬(r = 0 ∧ 240 < g ∧ b = 0) →
      (decideTextColor r g b = "#FFFFFF" ↔
        (0.299 : ℚ) * r + 0.587 * g + 0.114 * b < 150)) ∧
    get_contrasting_text_color "#7F7F7F" = .ok "#FFFFFF" ∧
    get_contrasting_text_color "#818181" = .ok "#FFFFFF" ∧
    get_contrasting_text_color "#FFFFFF" = .ok "#000000" := by
  refine ⟨?_, ?_, ?_, ?_⟩
  · intro r g b h
    simp only [decideTextColor, if_neg h]
    by_cases hlt : (0.299 : ℚ) * r + 0.587 * g + 0.114 * b < 150
    · simp [hlt]
    · rw [if_neg hlt]
      exact iff_of_false (by decide) hlt
  · have h1 : get_contrasting_text_color "#7F7F7F" = .ok (decideTextColor 127 127 127) := by
      rfl
    rw [h1, decideTextColor, if_neg (by decide), if_pos (by norm_num)]
  · have h1 : get_contrasting_text_color "#818181" = .ok (decideTextColor 129 129 129) := by
      rfl
    rw [h1, decideTextColor, if_neg (by decide), if_pos (by norm_num)]
  · have h1 : get_contrasting_text_color "#FFFFFF" = .ok (decideTextColor 255 255 255) := by
      rfl
    rw [h1, decideTextColor, if_neg (by decide), if_neg (by norm_num)]

/-- C5 witness: the threshold equivalence applied at the mid gray
`#7F7F7F` channels. -/
theorem C5_luminance_threshold_witness :
    decideTextColor 127 127 127 = "#FFFFFF" :=
  (C5_luminance_threshold.1 127 127 127 (by decide)).mpr (by norm_num)

/-- C6 counterexample: the computed connected-sephiroth set for focus
3 does contain the hidden node (the code adds it for every focus
1-6), even though the render omits it; so hidden-node membership in
the focus sets is not equivalent to focus being 1 or 6. -/
theorem C6_counterexample :
    (0 : Int) ∈ get_connected_sephiroth standardTree 3 ∧
    (render standardTree (some 3)).daathDrawn = none := by
  decide

/-- C6 (amended): for every valid focus 1-10 the connected-path set
contains exactly the paths whose pair includes the focus; the
computed connected-sephiroth set contains the hidden node exactly for
focus 1-6; and the render actually draws the hidden node exactly for
focus 1 or 6 (so focus 1 and 6 include it and focus 3 excludes it). -/
theorem C6_focus_sets :
    ∀ f : Int, 1 ≤ f → f ≤ 10 →
      (∀ p ∈ standardTree.paths,
        (p.number ∈ get_connected_paths standardTree f ↔
          (p.connects.1 = f - 1 ∨ p.connects.2 = f - 1))) ∧
      ((0 : Int) ∈ get_connected_sephiroth standardTree f ↔ f ≤ 6) ∧
      ((render standardTree (some f)).daathDrawn ≠ none ↔ (f = 1 ∨ f = 6)) := by
  intro f h1 h2
  interval_cases f <;> exact (by decide)

/-- C6 witness at focus 6: the hidden node is drawn. -/
theorem C6_focus_sets_witness :
    (render standardTree (some 6)).daathDrawn ≠ none :=
  (C6_focus_sets 6 (by decide) (by decide)).2.2.mpr (Or.inr rfl)

/-- C7: with the default scale parameters 1.75 and 1.5, node 1
(Kether) sits at `(0, 9 * 1.5)` and the hidden node at
`(0, 6.75 * 1.5 - 0.75)`; and for all scale parameters the hidden
node coordinate is the arithmetic average of the coordinates of nodes
2, 3, 4 and 5 as constructed from their fixed coefficients. -/
theorem C7_positions :
    sephCoord standardTree 1 = (0, 9 * (1.5 : ℚ)) ∧
    standardTree.daath.coord = (0, 6.75 * (1.5 : ℚ) - 0.75) ∧
    ∀ sphereScale spacing : ℚ,
      (initTree sphereScale spacing .plain .plain []).1.daath.coord =
        (((sephCoord (initTree sphereScale spacing .plain .plain []).1 2).1 +
          (sephCoord (initTree sphereScale spacing .plain .plain []).1 3).1 +
          (sephCoord (initTree sphereScale spacing .plain .plain []).1 4).1 +
          (sephCoord (initTree sphereScale spacing .plain .plain []).1 5).1) / 4,
         ((sephCoord (initTree sphereScale spacing .plain .plain []).1 2).2 +
          (sephCoord (initTree sphereScale spacing .plain .plain []).1 3).2 +
          (sephCoord (initTree sphereScale spacing .plain .plain []).1 4).2 +
          (sephCoord (initTree sphereScale spacing .plain .plain []).1 5).2) / 4) := by
  refine ⟨?_, ?_, ?_⟩
  · norm_num [standardTree, sephCoord, initTree, set_sephiroth_color_scheme,
      set_path_color_scheme, init_sephiroth, init_daath, vertical_shift, List.find?]
  · norm_num [standardTree, initTree, set_sephiroth_color_scheme,
      set_path_color_scheme, init_sephiroth, init_daath, vertical_shift]
  · intro sphereScale spacing
    simp [initTree, set_sephiroth_color_scheme, set_path_color_scheme,
      init_sephiroth, init_daath, sephCoord, vertical_shift, List.find?]
    ring

/-- C8: applying the plain scheme to both collections is idempotent,
and afterwards every sephirah (the hidden one included) and every
path carries its hard-coded default color with no effect. -/
theorem C8_plain_reset_idempotent :
    ∀ st : TreeState,
      applyPlainBoth (applyPlainBoth st) = applyPlainBoth st ∧
      (∀ s ∈ (applyPlainBoth st).sephiroth,
        s.color = .str (defaultLookup DEFAULT_SEPHIROTH_COLORS s.number) ∧
        s.color_effect = none) ∧
      (applyPlainBoth st).daath.color = .str (defaultLookup DEFAULT_SEPHIROTH_COLORS 0) ∧
      (applyPlainBoth st).daath.color_effect = none ∧
      (∀ p ∈ (applyPlainBoth st).paths,
        p.color = .str (defaultLookup DEFAULT_PATH_COLORS p.number) ∧
        p.color_effect = none) := by
  intro st
  refine ⟨?_, ?_, ?_, ?_, ?_⟩
  · simp [applyPlainBoth, set_sephiroth_color_scheme, set_path_color_scheme,
      List.map_map, Function.comp]
  · intro s hs
    simp [applyPlainBoth, set_sephiroth_color_scheme, set_path_color_scheme] at hs
    obtain ⟨a, _, rfl⟩ := hs
    exact ⟨rfl, rfl⟩
  · rfl
  · rfl
  · intro p hp
    simp [applyPlainBoth, set_sephiroth_color_scheme, set_path_color_scheme] at hp
    obtain ⟨a, _, rfl⟩ := hp
    exact ⟨rfl, rfl⟩

/-- C8 witness: the first path of the plain-reset default tree has
the default white color and no effect. -/
theorem C8_plain_reset_idempotent_witness :
    plainPath11.color = .str (defaultLookup DEFAULT_PATH_COLORS plainPath11.number) ∧
    plainPath11.color_effect = none :=
  (C8_plain_reset_idempotent standardTree).2.2.2.2 plainPath11 (by decide)

/-- C9: speckle rendering is deterministic because the element id
reseeds the generator (two renders from any two RNG states over the
same stream family produce identical primitives); node flecks stay
within 90% of the node radius; and path flecks never coincide with
either endpoint of the path. -/
theorem C9_speckle_deterministic :
    (∀ (s1 s2 : RngState) (number : Nat) (x y radius : ℝ), s1.family = s2.family →
      (apply_color_effect_flecked number x y radius s1).1 =
        (apply_color_effect_flecked number x y radius s2).1) ∧
    (∀ (s1 s2 : RngState) (path_num : Nat) (x1 y1 x2 y2 scale : ℝ),
      s1.family = s2.family →
      (apply_path_effect_flecked path_num x1 y1 x2 y2 scale s1).1 =
        (apply_path_effect_flecked path_num x1 y1 x2 y2 scale s2).1) ∧
    (∀ (s : RngState), (∀ i j, 0 ≤ s.family i j ∧ s.family i j < 1) →
      ∀ (number : Nat) (x y radius : ℝ), 0 ≤ radius →
      ∀ c r, Prim.circle c r ∈ (apply_color_effect_flecked number x y radius s).1 →
        (c.1 - x)^2 + (c.2 - y)^2 ≤ (0.9 * radius)^2) ∧
    (∀ (s : RngState), (∀ i j, 0 ≤ s.family i j ∧ s.family i j < 1) →
      ∀ (path_num : Nat) (x1 y1 x2 y2 scale : ℝ), (x1, y1) ≠ (x2, y2) →
      ∀ c r, Prim.circle c r ∈ (apply_path_effect_flecked path_num x1 y1 x2 y2 scale s).1 →
        c ≠ (x1, y1) ∧ c ≠ (x2, y2)) := by
  refine ⟨?_, ?_, ?_, ?_⟩
  · intro s1 s2 number x y radius h
    simp only [apply_color_effect_flecked, npSeed_eq h]
  · intro s1 s2 path_num x1 y1 x2 y2 scale h
    simp only [apply_path_effect_flecked, npSeed_eq h]
  · intro s hs number x y radius hrad c r hmem
    exact drawFlecks_bound x y radius hrad 50 (npSeed number s) hs c r hmem
  · intro s hs path_num x1 y1 x2 y2 scale hne c r hmem
    simp only [apply_path_effect_flecked] at hmem
    have hdd : 0 < (x2 - x1) * (x2 - x1) + (y2 - y1) * (y2 - y1) := by
      by_cases hx : x1 = x2
      · by_cases hy : y1 = y2
        · exact absurd (by rw [hx, hy]) hne
        · have hpos : 0 < (y2 - y1) * (y2 - y1) :=
            mul_self_pos.mpr (sub_ne_zero.mpr (Ne.symm hy))
          nlinarith [mul_self_nonneg (x2 - x1)]
      · have hpos : 0 < (x2 - x1) * (x2 - x1) :=
          mul_self_pos.mpr (sub_ne_zero.mpr (Ne.symm hx))
        nlinarith [mul_self_nonneg (y2 - y1)]
    have h2 := drawPathFlecks_ne x1 y1 (x2 - x1) (y2 - y1) scale hdd _
      (npSeed path_num s) hs c r hmem
    refine ⟨h2.1, ?_⟩
    have heq : (x1 + (x2 - x1), y1 + (y2 - y1)) = (x2, y2) := by
      rw [Prod.mk.injEq]
      constructor <;> ring
    exact heq ▸ h2.2

/-- C9 witness: two node-speckle renders from different RNG positions
over the same stream family coincide. -/
theorem C9_speckle_deterministic_witness :
    (apply_color_effect_flecked 1 0 0 1
        { family := fun _ _ => 0, seed := 5, pos := 7 }).1 =
      (apply_color_effect_flecked 1 0 0 1
        { family := fun _ _ => 0, seed := 2, pos := 3 }).1 :=
  C9_speckle_deterministic.1 _ _ 1 0 0 1 rfl

/-- C10: every successfully processed document produces a table with
exactly the four scheme keys, so for any tree holding such a table
the whole-operation no-op branch of the two scheme setters (which
would warn) is unreachable for every non-plain scheme: no warning is
emitted. -/
theorem C10_table_always_four_keys :
    ∀ (doc : Yaml) (t : ColorTable), processScales doc = .ok t →
      t.map Prod.fst = ["king", "queen", "prince", "princess"] ∧
      ∀ (st : TreeState) (scheme : ColorScheme), st.color_data = t →
        scheme ≠ .plain →
        (set_sephiroth_color_scheme scheme st).2 = [] ∧
        (set_path_color_scheme scheme st).2 = [] := by
  intro doc t h
  have hkeys := processScales_keys doc t h
  refine ⟨hkeys, ?_⟩
  intro st scheme hcd hs
  have hne : st.color_data.isEmpty = false := by
    rw [hcd]
    cases t with
    | nil => simp at hkeys
    | cons hd tl => rfl
  have hval : scheme.value ∈ t.map Prod.fst := by
    rw [hkeys]
    cases scheme with
    | plain => exact absurd rfl hs
    | king => simp [ColorScheme.value]
    | queen => simp [ColorScheme.value]
    | prince => simp [ColorScheme.value]
    | princess => simp [ColorScheme.value]
  have hlook : (tableLookup st.color_data scheme.value).isNone = false := by
    rw [hcd]
    have hsome := find?_isSome_of_mem_keys t scheme.value hval
    simp only [tableLookup]
    obtain ⟨kv, hkv⟩ := Option.isSome_iff_exists.mp hsome
    simp [hkv]
  have hguard : (st.color_data.isEmpty ||
      (tableLookup st.color_data scheme.value).isNone) = false := by
    rw [hne, hlook]; rfl
  constructor <;> simp [set_sephiroth_color_scheme, set_path_color_scheme, hs, hguard]

/-- C10 witness: the empty document yields the pre-initialized
four-key table, on which the king setter emits no warning. -/
theorem C10_table_always_four_keys_witness :
    initResult.map Prod.fst = ["king", "queen", "prince", "princess"] ∧
    (set_sephiroth_color_scheme .king
      { standardTree with color_data := initResult }).2 = [] := by
  have h := C10_table_always_four_keys (Yaml.ofMap []) initResult (by rfl)
  exact ⟨h.1, (h.2 { standardTree with color_data := initResult } .king rfl (by decide)).1⟩

end Tol
